import Mathlib

/-!
Verification of the Kindle-Dashboard-Server aggregation engine.

The development shallowly embeds the Python source (`data_services.py`,
`app.py`, `config.py`) in Lean:

* Python floats are idealised as `ℚ` (for values produced by exact
  arithmetic) or `ℝ` (for the velocity score, which uses `math.pow`);
* wall-clock time (`time.time()`, `datetime`) is an explicit `ℚ` (seconds)
  or `ℤ` (minutes / days) parameter;
* network calls are `Option` payloads: `none` models an exception /
  timeout, `some` carries the already-parsed response;
* the thread locks guard single map operations, so the cache is modelled
  by its sequential semantics.
-/

/-! ### `SimpleCache` (data_services.py lines 20-39)

The Python class stores `key ↦ (value, timestamp)` in a dict.  `get`
returns the value while `now - timestamp < ttl`, and otherwise deletes the
entry (lazy expiry) and returns `None`.  `set` unconditionally overwrites
with the current timestamp.  We model the dict as a function
`String → Option (α × ℚ)` and pass `now` explicitly. -/

structure SimpleCache (α : Type) where
  ttl : ℚ
  cache : String → Option (α × ℚ)

def SimpleCache.get {α : Type} (s : SimpleCache α) (key : String) (now : ℚ) :
    Option α × SimpleCache α :=
  match s.cache key with
  | some (val, timestamp) =>
      if now - timestamp < s.ttl then (some val, s)
      else (none, { s with cache := fun k => if k = key then none else s.cache k })
  | none => (none, s)

def SimpleCache.set {α : Type} (s : SimpleCache α) (key : String) (value : α)
    (now : ℚ) : SimpleCache α :=
  { s with cache := fun k => if k = key then some (value, now) else s.cache k }

/-- After `get`, every surviving entry was already in the cache
(the lookup can only delete, never add or modify). -/
theorem SimpleCache.get_snd_subset {α : Type} (s : SimpleCache α) (key : String)
    (now : ℚ) (k : String) (e : α × ℚ)
    (h : ((s.get key now).2).cache k = some e) : s.cache k = some e := by
  unfold SimpleCache.get at h
  cases hc : s.cache key with
  | none => rw [hc] at h; exact h
  | some p =>
      rw [hc] at h
      by_cases ht : now - p.2 < s.ttl
      · simp [ht] at h; exact h
      · simp [ht] at h
        by_cases hk : k = key
        · simp [hk] at h
        · simpa [hk] using h

/-- A `get` leaves the ttl untouched. -/
theorem SimpleCache.get_snd_ttl {α : Type} (s : SimpleCache α) (key : String)
    (now : ℚ) : ((s.get key now).2).ttl = s.ttl := by
  unfold SimpleCache.get
  cases hc : s.cache key with
  | none => rfl
  | some p => by_cases ht : now - p.2 < s.ttl <;> simp [ht]

/-! ### String helpers

Python's `w in title` substring test and `str.lower()`. -/

def charsHaveStart : List Char → List Char → Bool
  | [], _ => true
  | _ :: _, [] => false
  | p :: ps, c :: cs => p == c && charsHaveStart ps cs

def charsHaveSub (p : List Char) : List Char → Bool
  | [] => p.isEmpty
  | c :: cs => charsHaveStart p (c :: cs) || charsHaveSub p cs

/-- Models Python's substring test `pat in s`. -/
def hasSubstr (s pat : String) : Bool :=
  charsHaveSub pat.toList s.toList

/-- ASCII lowering, which is what Python's `str.lower()` does on the
ASCII keyword comparisons in this code. -/
def lowerChar (c : Char) : Char :=
  if 65 ≤ c.toNat ∧ c.toNat ≤ 90 then Char.ofNat (c.toNat + 32) else c

/-- Models `title.lower()`. -/
def pyLower (s : String) : String := ⟨s.data.map lowerChar⟩

/-! ### Story records and the news ranking (data_services.py lines 370-547)

A `Story` is a resolved Hacker News item (items marked deleted/dead were
already dropped while filling `items_map`).  `age` is the precomputed
`age_hours = (now - item_time) / 3600`. -/

structure Story where
  id : ℤ
  title : String
  score : ℤ
  descendants : ℤ
  age : ℚ
deriving DecidableEq, Repr

/-- Resolution `items_map.get sid` for each id, dropping unresolved ids
(the `if not item: continue` pattern). -/
def lookupItems (m : List Story) (ids : List ℤ) : List Story :=
  ids.filterMap (fun i => m.find? (fun s => s.id == i))

/-- Line 430: `if age_hours > 12 or score < 50: continue`. -/
def candidateOK (s : Story) : Bool :=
  !(decide (s.age > 12) || decide (s.score < 50))

/-- Line 444: the first-person / subjective marker list. -/
def subjective_words : List String :=
  [" i ", " me ", " my ", " how i ", " why i ", "forced me"]

/-- Lines 449-453: the event / launch / incident keyword list. -/
def event_words : List String :=
  ["release", "launch", "announce", "available", "open source",
   "v1.", "v2.", "v3.", "v4.", "gpt", "claude", "llama", "deepseek",
   "cve-", "zero-day", "hack", "outage"]

def subj_hit (title : String) : Bool :=
  subjective_words.any (fun w => hasSubstr (pyLower title) w)

def event_hit (title : String) : Bool :=
  event_words.any (fun w => hasSubstr (pyLower title) w)

/-- Lines 439-455: `semantic_modifier` starts at 1.0, is multiplied by 0.4
on a subjective hit and by 1.5 on an event hit. -/
def semanticModifier (title : String) : ℚ :=
  (if subj_hit title then (0.4 : ℚ) else 1) * (if event_hit title then (1.5 : ℚ) else 1)

/-- Line 436: `impact = score + descendants * 0.2`. -/
def impact (s : Story) : ℚ := s.score + s.descendants * (0.2 : ℚ)

/-- Numerator of the velocity formula. -/
def velNum (s : Story) : ℚ := impact s * semanticModifier s.title

/-- Denominator base `age_hours + 1.5` of the velocity formula. -/
def den (s : Story) : ℚ := s.age + (1.5 : ℚ)

/-- Line 459: `velocity = (impact * semantic_modifier) / (age + 1.5) ** 1.8`,
idealising the float computation over `ℝ`. -/
noncomputable def velocityR (s : Story) : ℝ :=
  ((velNum s : ℚ) : ℝ) / ((den s : ℚ) : ℝ) ^ (1.8 : ℝ)

/-- Computable stand-in for velocity comparisons: since `x ↦ x ^ 5` is
strictly monotone on `ℝ` and `(d ^ 1.8) ^ 5 = d ^ 9` for `d > 0`, comparing
velocities is the same as comparing `velNum ^ 5 / den ^ 9` over `ℚ`
(proved below in `velBefore_iff` / `breaking_ok_iff`). -/
def velKey (s : Story) : ℚ := velNum s ^ 5 / den s ^ 9

/-- Ordering used to model line 465,
`breaking_candidates.sort(key=velocity, reverse=True)` (a stable descending
sort): `a` may precede `b` iff its velocity is at least `b`'s. -/
def velBefore (a b : Story) : Prop := velKey b ≤ velKey a

instance : DecidableRel velBefore :=
  fun a b => inferInstanceAs (Decidable (velKey b ≤ velKey a))

instance : IsTotal Story velBefore := ⟨fun a b => le_total (velKey b) (velKey a)⟩

instance : IsTrans Story velBefore := ⟨fun _ _ _ hab hbc => le_trans hbc hab⟩

/-- Ordering for line 518, `sorted(..., key=score, reverse=True)`. -/
def scoreBefore (a b : Story) : Prop := b.score ≤ a.score

instance : DecidableRel scoreBefore :=
  fun a b => inferInstanceAs (Decidable (b.score ≤ a.score))

instance : IsTotal Story scoreBefore := ⟨fun a b => le_total b.score a.score⟩

instance : IsTrans Story scoreBefore := ⟨fun _ _ _ hab hbc => le_trans hbc hab⟩

/-- Lines 419-462: the filtered breaking candidates, in `top_ids` order. -/
def breaking_candidates (m : List Story) (topIds : List ℤ) : List Story :=
  (lookupItems m topIds).filter candidateOK

/-- The candidates sorted by velocity descending (line 465).  Python's sort
is stable, so it agrees with stable insertion sort on the reflected order. -/
def sortedCandidates (m : List Story) (topIds : List ℤ) : List Story :=
  List.insertionSort velBefore (breaking_candidates m topIds)

/-- Line 492: `breaker['velocity'] > 30`, reflected over `ℚ`
(equivalent to `30 < velocityR s` when `0 < den s`, see `breaking_ok_iff`). -/
def breaking_ok (s : Story) : Bool := decide ((30 : ℚ) ^ 5 < velKey s)

/-- One entry of the assembled list: the story plus its breaking flag. -/
structure Ranked where
  story : Story
  isBreaking : Bool
deriving DecidableEq, Repr

/-- The dedup-and-cap filling loop shared by stages 2-4 (lines 499-524):
`for item in src: if len(final) >= cap: break;
 if item.id not in seen: item.is_breaking = False; final.append(item)`.
`seen_ids` always equals the set of ids already in the list. -/
def fillList (cap : ℕ) (acc : List Ranked) : List Story → List Ranked
  | [] => acc
  | s :: rest =>
      if cap ≤ acc.length then acc
      else if s.id ∈ acc.map (fun r => r.story.id) then fillList cap acc rest
      else fillList cap (acc ++ [⟨s, false⟩]) rest

/-- Stage 1 (lines 485-496): promote the top sorted candidate iff its
velocity exceeds 30. -/
def stage1 (m : List Story) (topIds : List ℤ) : List Ranked :=
  match sortedCandidates m topIds with
  | [] => []
  | b :: _ => if breaking_ok b then [⟨b, true⟩] else []

/-- Stage 2 (lines 499-504): fill with best stories in their given order. -/
def stage2 (m : List Story) (topIds bestIds : List ℤ) : List Ranked :=
  fillList 10 (stage1 m topIds) (lookupItems m bestIds)

/-- Stage 3 (lines 507-514): if still under 10, fill with the remaining
velocity-sorted candidates. -/
def stage3 (m : List Story) (topIds bestIds : List ℤ) : List Ranked :=
  if (stage2 m topIds bestIds).length < 10 then
    fillList 10 (stage2 m topIds bestIds) (sortedCandidates m topIds)
  else stage2 m topIds bestIds

/-- All resolved top stories sorted by raw score descending (line 518). -/
def top_by_score (m : List Story) (topIds : List ℤ) : List Story :=
  List.insertionSort scoreBefore (lookupItems m topIds)

/-- Stage 4 (lines 517-524) and the final result of the ranking part of
`get_hacker_news`. -/
def rank_news (m : List Story) (topIds bestIds : List ℤ) : List Ranked :=
  if (stage3 m topIds bestIds).length < 10 then
    fillList 10 (stage3 m topIds bestIds) (top_by_score m topIds)
  else stage3 m topIds bestIds

/-! ### Soundness of the `ℚ`-reflected velocity comparisons -/

theorem velKey_cast_eq (s : Story) (hd : 0 < den s) :
    ((velKey s : ℚ) : ℝ) = velocityR s ^ (5 : ℕ) := by
  have hd' : (0 : ℝ) < ((den s : ℚ) : ℝ) := by exact_mod_cast hd
  have hpow : (((den s : ℚ) : ℝ) ^ (1.8 : ℝ)) ^ (5 : ℕ) = ((den s : ℚ) : ℝ) ^ (9 : ℕ) := by
    rw [← Real.rpow_natCast (((den s : ℚ) : ℝ) ^ (1.8 : ℝ)) 5, ← Real.rpow_mul hd'.le]
    norm_num
    rw [← Real.rpow_natCast ((den s : ℚ) : ℝ) 9]
    norm_num
  unfold velocityR
  rw [div_pow, hpow]
  unfold velKey
  push_cast
  ring_nf

theorem velBefore_iff (a b : Story) (ha : 0 < den a) (hb : 0 < den b) :
    velBefore a b ↔ velocityR b ≤ velocityR a := by
  have h5 : Odd 5 := ⟨2, by norm_num⟩
  unfold velBefore
  rw [← Rat.cast_le (K := ℝ), velKey_cast_eq a ha, velKey_cast_eq b hb]
  exact (Odd.strictMono_pow (R := ℝ) h5).le_iff_le

theorem breaking_ok_iff (s : Story) (hd : 0 < den s) :
    breaking_ok s = true ↔ (30 : ℝ) < velocityR s := by
  have h5 : Odd 5 := ⟨2, by norm_num⟩
  unfold breaking_ok
  rw [decide_eq_true_iff, ← Rat.cast_lt (K := ℝ), velKey_cast_eq s hd]
  have : (((30 : ℚ) ^ 5 : ℚ) : ℝ) = (30 : ℝ) ^ (5 : ℕ) := by push_cast; ring
  rw [this]
  exact (Odd.strictMono_pow (R := ℝ) h5).lt_iff_lt

/-! ### Structural lemmas about the assembly stages -/

/-- The ids of an assembled list. -/
def ids (l : List Ranked) : List ℤ := l.map (fun r => r.story.id)

theorem fillList_spec (l : List Story) : ∀ (cap : ℕ) (acc : List Ranked),
    ∃ t, fillList cap acc l = acc ++ t ∧ List.Sublist (t.map Ranked.story) l ∧
      ∀ r ∈ t, r.isBreaking = false := by
  induction l with
  | nil =>
      intro cap acc
      exact ⟨[], by simp [fillList], List.nil_sublist _, by simp⟩
  | cons s rest ih =>
      intro cap acc
      by_cases h1 : cap ≤ acc.length
      · exact ⟨[], by simp [fillList, h1], List.nil_sublist _, by simp⟩
      · by_cases h2 : s.id ∈ acc.map (fun r => r.story.id)
        · obtain ⟨t, ht, hsub, hbrk⟩ := ih cap acc
          exact ⟨t, by simp [fillList, h1, h2, ht], hsub.cons s, hbrk⟩
        · obtain ⟨t, ht, hsub, hbrk⟩ := ih cap (acc ++ [⟨s, false⟩])
          refine ⟨⟨s, false⟩ :: t, ?_, ?_, ?_⟩
          · simp [fillList, h1, h2, ht]
          · exact List.Sublist.cons₂ s hsub
          · intro r hr
            rcases List.mem_cons.mp hr with h | h
            · rw [h]
            · exact hbrk r h

theorem fillList_length_le (l : List Story) : ∀ (cap : ℕ) (acc : List Ranked),
    acc.length ≤ cap → (fillList cap acc l).length ≤ cap := by
  induction l with
  | nil => intro cap acc h; simpa [fillList] using h
  | cons s rest ih =>
      intro cap acc h
      by_cases h1 : cap ≤ acc.length
      · simpa [fillList, h1] using h
      · by_cases h2 : s.id ∈ acc.map (fun r => r.story.id)
        · simpa [fillList, h1, h2] using ih cap acc h
        · have hlt : acc.length < cap := lt_of_not_ge h1
          have : (acc ++ [(⟨s, false⟩ : Ranked)]).length ≤ cap := by
            simpa using hlt
          simpa [fillList, h1, h2] using ih cap (acc ++ [⟨s, false⟩]) this

theorem fillList_nodup (l : List Story) : ∀ (cap : ℕ) (acc : List Ranked),
    (ids acc).Nodup → (ids (fillList cap acc l)).Nodup := by
  induction l with
  | nil => intro cap acc h; simpa [fillList] using h
  | cons s rest ih =>
      intro cap acc h
      by_cases h1 : cap ≤ acc.length
      · simpa [fillList, h1] using h
      · by_cases h2 : s.id ∈ acc.map (fun r => r.story.id)
        · simpa [fillList, h1, h2] using ih cap acc h
        · have hnd : (ids (acc ++ [⟨s, false⟩])).Nodup := by
            unfold ids at h ⊢
            rw [List.map_append]
            refine List.Nodup.append h (by simp) ?_
            intro x hx hx2
            simp at hx2
            rw [hx2] at hx
            exact h2 hx
          simpa [fillList, h1, h2] using ih cap (acc ++ [⟨s, false⟩]) hnd

theorem fillList_ids_mono (l : List Story) (cap : ℕ) (acc : List Ranked) :
    ids acc ⊆ ids (fillList cap acc l) := by
  obtain ⟨t, ht, -, -⟩ := fillList_spec l cap acc
  rw [ht]
  unfold ids
  rw [List.map_append]
  exact List.subset_append_left _ _

theorem fillList_covers (l : List Story) : ∀ (cap : ℕ) (acc : List Ranked),
    (fillList cap acc l).length < cap →
    ∀ s ∈ l, s.id ∈ ids (fillList cap acc l) := by
  induction l with
  | nil => intro cap acc _ s hs; exact absurd hs (List.not_mem_nil s)
  | cons s rest ih =>
      intro cap acc hlen x hx
      by_cases h1 : cap ≤ acc.length
      · rw [show fillList cap acc (s :: rest) = acc by simp [fillList, h1]] at hlen
        exact absurd h1 (not_le_of_lt hlen)
      · by_cases h2 : s.id ∈ acc.map (fun r => r.story.id)
        · have heq : fillList cap acc (s :: rest) = fillList cap acc rest := by
            simp [fillList, h1, h2]
          rw [heq] at hlen ⊢
          rcases List.mem_cons.mp hx with h | h
          · rw [h]
            exact fillList_ids_mono rest cap acc h2
          · exact ih cap acc hlen x h
        · have heq : fillList cap acc (s :: rest) =
              fillList cap (acc ++ [⟨s, false⟩]) rest := by
            simp [fillList, h1, h2]
          rw [heq] at hlen ⊢
          rcases List.mem_cons.mp hx with h | h
          · rw [h]
            refine fillList_ids_mono rest cap (acc ++ [⟨s, false⟩]) ?_
            unfold ids
            simp
          · exact ih cap (acc ++ [⟨s, false⟩]) hlen x h

theorem stage1_cases (m : List Story) (topIds : List ℤ) :
    stage1 m topIds = [] ∨
    ∃ b rest, sortedCandidates m topIds = b :: rest ∧ breaking_ok b = true ∧
      stage1 m topIds = [⟨b, true⟩] := by
  unfold stage1
  cases hc : sortedCandidates m topIds with
  | nil => exact Or.inl rfl
  | cons b rest =>
      by_cases hb : breaking_ok b
      · exact Or.inr ⟨b, rest, rfl, hb, by simp [hb]⟩
      · simp [hb]

theorem stage1_length_le (m : List Story) (topIds : List ℤ) :
    (stage1 m topIds).length ≤ 1 := by
  rcases stage1_cases m topIds with h | ⟨b, rest, -, -, h⟩ <;> simp [h]

theorem stage1_nodup (m : List Story) (topIds : List ℤ) :
    (ids (stage1 m topIds)).Nodup := by
  rcases stage1_cases m topIds with h | ⟨b, rest, -, -, h⟩ <;> simp [h, ids]

/-- Full decomposition of the assembled list into its four stages. -/
theorem rank_news_decomp (m : List Story) (topIds bestIds : List ℤ) :
    ∃ t2 t3 t4,
      rank_news m topIds bestIds = stage1 m topIds ++ t2 ++ t3 ++ t4 ∧
      List.Sublist (t2.map Ranked.story) (lookupItems m bestIds) ∧
      List.Sublist (t3.map Ranked.story) (sortedCandidates m topIds) ∧
      List.Sublist (t4.map Ranked.story) (top_by_score m topIds) ∧
      (∀ r ∈ t2, r.isBreaking = false) ∧ (∀ r ∈ t3, r.isBreaking = false) ∧
      (∀ r ∈ t4, r.isBreaking = false) := by
  obtain ⟨t2, h2, hs2, hb2⟩ := fillList_spec (lookupItems m bestIds) 10 (stage1 m topIds)
  have hst2 : stage2 m topIds bestIds = stage1 m topIds ++ t2 := h2
  by_cases g3 : (stage2 m topIds bestIds).length < 10
  · obtain ⟨t3, h3, hs3, hb3⟩ := fillList_spec (sortedCandidates m topIds) 10
      (stage2 m topIds bestIds)
    have hst3 : stage3 m topIds bestIds = stage2 m topIds bestIds ++ t3 := by
      unfold stage3; rw [if_pos g3]; exact h3
    by_cases g4 : (stage3 m topIds bestIds).length < 10
    · obtain ⟨t4, h4, hs4, hb4⟩ := fillList_spec (top_by_score m topIds) 10
        (stage3 m topIds bestIds)
      refine ⟨t2, t3, t4, ?_, hs2, hs3, hs4, hb2, hb3, hb4⟩
      unfold rank_news
      rw [if_pos g4, h4, hst3, hst2]
    · refine ⟨t2, t3, [], ?_, hs2, hs3, List.nil_sublist _, hb2, hb3, by simp⟩
      unfold rank_news
      rw [if_neg g4, hst3, hst2]
      simp [List.append_assoc]
  · have hst3 : stage3 m topIds bestIds = stage2 m topIds bestIds := by
      unfold stage3; rw [if_neg g3]
    have g4 : ¬ (stage3 m topIds bestIds).length < 10 := by rw [hst3]; exact g3
    refine ⟨t2, [], [], ?_, hs2, List.nil_sublist _, List.nil_sublist _, hb2, by simp, by simp⟩
    unfold rank_news
    rw [if_neg g4, hst3, hst2]
    simp

theorem stage2_length_le (m : List Story) (topIds bestIds : List ℤ) :
    (stage2 m topIds bestIds).length ≤ 10 :=
  fillList_length_le _ 10 _ (le_trans (stage1_length_le m topIds) (by norm_num))

theorem stage3_length_le (m : List Story) (topIds bestIds : List ℤ) :
    (stage3 m topIds bestIds).length ≤ 10 := by
  unfold stage3
  by_cases g : (stage2 m topIds bestIds).length < 10
  · rw [if_pos g]; exact fillList_length_le _ 10 _ (stage2_length_le m topIds bestIds)
  · rw [if_neg g]; exact stage2_length_le m topIds bestIds

/-- The assembled list never exceeds 10 entries. -/
theorem rank_news_length_le (m : List Story) (topIds bestIds : List ℤ) :
    (rank_news m topIds bestIds).length ≤ 10 := by
  unfold rank_news
  by_cases g : (stage3 m topIds bestIds).length < 10
  · rw [if_pos g]; exact fillList_length_le _ 10 _ (stage3_length_le m topIds bestIds)
  · rw [if_neg g]; exact stage3_length_le m topIds bestIds

/-- The assembled list has no duplicate ids. -/
theorem rank_news_nodup (m : List Story) (topIds bestIds : List ℤ) :
    (ids (rank_news m topIds bestIds)).Nodup := by
  have h2 : (ids (stage2 m topIds bestIds)).Nodup :=
    fillList_nodup _ 10 _ (stage1_nodup m topIds)
  have h3 : (ids (stage3 m topIds bestIds)).Nodup := by
    unfold stage3
    by_cases g : (stage2 m topIds bestIds).length < 10
    · rw [if_pos g]; exact fillList_nodup _ 10 _ h2
    · rw [if_neg g]; exact h2
  unfold rank_news
  by_cases g : (stage3 m topIds bestIds).length < 10
  · rw [if_pos g]; exact fillList_nodup _ 10 _ h3
  · rw [if_neg g]; exact h3

theorem stage3_ids_mono (m : List Story) (topIds bestIds : List ℤ) :
    ids (stage2 m topIds bestIds) ⊆ ids (stage3 m topIds bestIds) := by
  unfold stage3
  by_cases g : (stage2 m topIds bestIds).length < 10
  · rw [if_pos g]; exact fillList_ids_mono _ 10 _
  · rw [if_neg g]; exact fun x hx => hx

theorem rank_news_ids_mono (m : List Story) (topIds bestIds : List ℤ) :
    ids (stage3 m topIds bestIds) ⊆ ids (rank_news m topIds bestIds) := by
  unfold rank_news
  by_cases g : (stage3 m topIds bestIds).length < 10
  · rw [if_pos g]; exact fillList_ids_mono _ 10 _
  · rw [if_neg g]; exact fun x hx => hx

/-- If the final list is shorter than 10, every resolvable story from both
id lists already appears in it. -/
theorem rank_news_coverage (m : List Story) (topIds bestIds : List ℤ)
    (h : (rank_news m topIds bestIds).length < 10) :
    (∀ s ∈ lookupItems m topIds, s.id ∈ ids (rank_news m topIds bestIds)) ∧
    (∀ s ∈ lookupItems m bestIds, s.id ∈ ids (rank_news m topIds bestIds)) := by
  have g4 : (stage3 m topIds bestIds).length < 10 := by
    by_contra g
    have : rank_news m topIds bestIds = stage3 m topIds bestIds := by
      unfold rank_news; rw [if_neg g]
    rw [this] at h
    exact g h
  have hrank : rank_news m topIds bestIds =
      fillList 10 (stage3 m topIds bestIds) (top_by_score m topIds) := by
    unfold rank_news; rw [if_pos g4]
  have g2 : (stage2 m topIds bestIds).length < 10 := by
    by_cases g3 : (stage2 m topIds bestIds).length < 10
    · exact g3
    · have : stage3 m topIds bestIds = stage2 m topIds bestIds := by
        unfold stage3; rw [if_neg g3]
      rw [this] at g4
      exact g4
  constructor
  · intro s hs
    have hmem : s ∈ top_by_score m topIds := by
      unfold top_by_score
      exact (List.mem_insertionSort scoreBefore).mpr hs
    rw [hrank] at h ⊢
    exact fillList_covers _ 10 _ h s hmem
  · intro s hs
    have h2 : s.id ∈ ids (stage2 m topIds bestIds) := by
      unfold stage2 at g2 ⊢
      exact fillList_covers _ 10 _ g2 s hs
    exact rank_news_ids_mono m topIds bestIds (stage3_ids_mono m topIds bestIds h2)

/-- With more than 10 distinct resolvable stories available, the list is
exactly 10 long. -/
theorem rank_news_full (m : List Story) (topIds bestIds : List ℤ)
    (h : 10 < (((lookupItems m topIds ++ lookupItems m bestIds).map Story.id).dedup).length) :
    (rank_news m topIds bestIds).length = 10 := by
  by_contra hne
  have hlt : (rank_news m topIds bestIds).length < 10 :=
    lt_of_le_of_ne (rank_news_length_le m topIds bestIds) hne
  obtain ⟨hTop, hBest⟩ := rank_news_coverage m topIds bestIds hlt
  have hE : (((lookupItems m topIds ++ lookupItems m bestIds).map Story.id).dedup).Nodup :=
    List.nodup_dedup _
  have hsub : ((lookupItems m topIds ++ lookupItems m bestIds).map Story.id).dedup ⊆
      ids (rank_news m topIds bestIds) := by
    intro x hx
    rw [List.mem_dedup, List.mem_map] at hx
    obtain ⟨s, hs, rfl⟩ := hx
    rcases List.mem_append.mp hs with hh | hh
    · exact hTop s hh
    · exact hBest s hh
  have hle := (hE.subperm hsub).length_le
  have hlen : (ids (rank_news m topIds bestIds)).length =
      (rank_news m topIds bestIds).length := List.length_map _ _
  omega

/-- Every entry after the head has a cleared breaking flag. -/
theorem rank_news_tail_flags (m : List Story) (topIds bestIds : List ℤ) :
    ∀ r ∈ (rank_news m topIds bestIds).tail, r.isBreaking = false := by
  obtain ⟨t2, t3, t4, heq, -, -, -, hb2, hb3, hb4⟩ := rank_news_decomp m topIds bestIds
  have hrest : ∀ r ∈ t2 ++ t3 ++ t4, r.isBreaking = false := by
    intro r hr
    rcases List.mem_append.mp hr with hr | hr
    · rcases List.mem_append.mp hr with hr | hr
      · exact hb2 r hr
      · exact hb3 r hr
    · exact hb4 r hr
  rcases stage1_cases m topIds with h1 | ⟨b, rest, -, -, h1⟩
  · rw [heq, h1]
    intro r hr
    refine hrest r ?_
    simp only [List.nil_append] at hr
    have := List.tail_subset (t2 ++ t3 ++ t4)
    simp only [List.append_assoc] at hr ⊢
    exact (List.tail_subset _) hr
  · rw [heq, h1]
    intro r hr
    refine hrest r ?_
    simp only [List.cons_append, List.tail_cons] at hr
    simpa [List.append_assoc] using hr

/-- If nothing was promoted, no entry of the final list is breaking. -/
theorem rank_news_no_breaking (m : List Story) (topIds bestIds : List ℤ)
    (h1 : stage1 m topIds = []) :
    ∀ r ∈ rank_news m topIds bestIds, r.isBreaking = false := by
  obtain ⟨t2, t3, t4, heq, -, -, -, hb2, hb3, hb4⟩ := rank_news_decomp m topIds bestIds
  rw [heq, h1]
  intro r hr
  simp only [List.nil_append, List.append_assoc, List.mem_append] at hr
  rcases hr with hr | hr | hr
  · exact hb2 r hr
  · exact hb3 r hr
  · exact hb4 r hr

/-- If a breaker was promoted, it is the head of the final list. -/
theorem rank_news_head (m : List Story) (topIds bestIds : List ℤ) (b : Story)
    (h1 : stage1 m topIds = [⟨b, true⟩]) :
    (rank_news m topIds bestIds).head? = some ⟨b, true⟩ := by
  obtain ⟨t2, t3, t4, heq, -, -, -, -, -, -⟩ := rank_news_decomp m topIds bestIds
  rw [heq, h1]
  rfl

theorem lookupItems_subset (m : List Story) (idl : List ℤ) :
    ∀ s ∈ lookupItems m idl, s ∈ m := by
  intro s hs
  unfold lookupItems at hs
  rw [List.mem_filterMap] at hs
  obtain ⟨i, -, hf⟩ := hs
  exact List.mem_of_find?_eq_some hf

theorem breaking_candidates_subset (m : List Story) (topIds : List ℤ) :
    ∀ s ∈ breaking_candidates m topIds, s ∈ m := by
  intro s hs
  unfold breaking_candidates at hs
  exact lookupItems_subset m topIds s (List.mem_filter.mp hs).1

theorem mem_sortedCandidates (m : List Story) (topIds : List ℤ) (s : Story) :
    s ∈ sortedCandidates m topIds ↔ s ∈ breaking_candidates m topIds :=
  List.mem_insertionSort velBefore

/-- The head of the sorted candidate list beats every candidate. -/
theorem sortedCandidates_head_max (m : List Story) (topIds : List ℤ)
    (b : Story) (rest : List Story)
    (h : sortedCandidates m topIds = b :: rest) :
    ∀ c ∈ breaking_candidates m topIds, velBefore b c := by
  have hs : (sortedCandidates m topIds).Sorted velBefore :=
    List.sorted_insertionSort velBefore _
  rw [h] at hs
  intro c hc
  have hmem : c ∈ b :: rest := by
    rw [← h]
    exact (mem_sortedCandidates m topIds c).mpr hc
  rcases List.mem_cons.mp hmem with hcb | hcr
  · rw [hcb]
    exact le_refl (velKey b)
  · exact List.rel_of_sorted_cons hs c hcr

/-- Characterisation of the hard filter at line 430. -/
theorem mem_breaking_candidates (m : List Story) (topIds : List ℤ) (s : Story) :
    s ∈ breaking_candidates m topIds ↔
      s ∈ lookupItems m topIds ∧ s.age ≤ 12 ∧ 50 ≤ s.score := by
  unfold breaking_candidates
  rw [List.mem_filter]
  unfold candidateOK
  constructor
  · rintro ⟨hm, hc⟩
    simp only [Bool.not_eq_true', Bool.or_eq_false_iff, decide_eq_false_iff_not,
      not_lt] at hc
    exact ⟨hm, hc.1, hc.2⟩
  · rintro ⟨hm, h1, h2⟩
    refine ⟨hm, ?_⟩
    simp only [Bool.not_eq_true', Bool.or_eq_false_iff, decide_eq_false_iff_not,
      not_lt]
    exact ⟨h1, h2⟩

/-- The velocity value, written out exactly as the spec states the formula. -/
theorem velocityR_formula (s : Story) :
    velocityR s =
      (((s.score : ℝ) + (s.descendants : ℝ) * 0.2) *
        ((if subj_hit s.title then (0.4 : ℝ) else 1) *
         (if event_hit s.title then (1.5 : ℝ) else 1))) /
      ((s.age : ℝ) + 1.5) ^ (1.8 : ℝ) := by
  unfold velocityR velNum impact semanticModifier den
  split_ifs <;> push_cast <;> norm_num

/-! ### Smart forecast slots (data_services.py lines 193-218)

Naive datetimes are modelled as minutes since an epoch midnight (`ℤ`).
`truncHour` is `.replace(minute=0, second=0, microsecond=0)` on an
hour-carrying value; `replaceHour h` is `.replace(hour=h, minute=0, ...)`,
which keeps the day of the value it is applied to. -/

def truncHour (t : ℤ) : ℤ := t - t % 60

def dayStart (t : ℤ) : ℤ := t - t % 1440

def replaceHour (t h : ℤ) : ℤ := dayStart t + h * 60

/-- Slot 1: `now + 1h`, truncated to the hour (lines 194-196). -/
def slot1 (now : ℤ) : ℤ := truncHour (now + 60)

/-- Slot 2: `now + 2h`, truncated to the hour (lines 199-201). -/
def slot2 (now : ℤ) : ℤ := truncHour (now + 120)

/-- Slot 3 (lines 204-216): the work-hours-aware slot.  `ws`/`we` are
`Config.WORK_START_HOUR` / `Config.WORK_END_HOUR`. -/
def slot3 (now ws we : ℤ) : ℤ :=
  let t3c := truncHour (now + 180)
  let workStart := replaceHour t3c ws
  let workEnd := replaceHour t3c we
  if t3c < workStart then workStart
  else if t3c < workEnd then workEnd
  else t3c

/-! ### Calendar scan (data_services.py lines 621-649)

Dates are days since an epoch Monday, so `weekday d = d % 7` matches
Python's `date.weekday()` (Monday = 0).  The holiday calendar is an
arbitrary predicate `hol` (the truthiness of `country_holidays.get(d)`). -/

def pyWeekday (d : ℤ) : ℤ := d % 7

def isWeekend (d : ℤ) : Bool := decide (5 ≤ pyWeekday d)

/-- The bounded forward scan: `for _ in range(30): ... next_date += 1 day`. -/
def scanNonWorking (hol : ℤ → Bool) : ℕ → ℤ → Option ℤ
  | 0, _ => none
  | n + 1, d => if isWeekend d || hol d then some d else scanNonWorking hol n (d + 1)

/-- The `next_non_working` record (display label elided: it does not affect
any claim). -/
structure NextNonWorking where
  date : ℤ
  daysAway : ℤ
deriving DecidableEq, Repr

/-- Lines 621-649: start from tomorrow, scan at most 30 days. -/
def next_non_working (hol : ℤ → Bool) (today : ℤ) : Option NextNonWorking :=
  match scanNonWorking hol 30 (today + 1) with
  | some d => some ⟨d, d - today⟩
  | none => none

theorem scanNonWorking_finds (hol : ℤ → Bool) :
    ∀ (n : ℕ) (start : ℤ) (i : ℕ), i < n →
      (isWeekend (start + i) || hol (start + i)) = true →
      ∃ d, scanNonWorking hol n start = some d ∧ start ≤ d ∧ d ≤ start + i := by
  intro n
  induction n with
  | zero => intro start i hi _; exact absurd hi (Nat.not_lt_zero i)
  | succ n ih =>
      intro start i hi hgood
      by_cases h0 : (isWeekend start || hol start) = true
      · exact ⟨start, by simp [scanNonWorking, h0], le_refl start, by omega⟩
      · have hi0 : i ≠ 0 := by
          intro h
          rw [h] at hgood
          simp only [Nat.cast_zero, add_zero] at hgood
          exact h0 hgood
        obtain ⟨j, hj⟩ := Nat.exists_eq_succ_of_ne_zero hi0
        have hgood' : (isWeekend (start + 1 + j) || hol (start + 1 + j)) = true := by
          have : start + 1 + (j : ℤ) = start + (i : ℤ) := by
            rw [hj]; push_cast; ring
          rw [this]
          exact hgood
        have hjn : j < n := by omega
        obtain ⟨d, hd, hd1, hd2⟩ := ih (start + 1) j hjn hgood'
        refine ⟨d, ?_, by omega, by
          have : start + 1 + (j : ℤ) = start + (i : ℤ) := by rw [hj]; push_cast; ring
          omega⟩
        simp [scanNonWorking, h0]
        exact hd

theorem weekend_within_six (today : ℤ) :
    ∃ i : ℕ, i ≤ 5 ∧ isWeekend (today + 1 + i) = true := by
  by_cases hc : (today + 1) % 7 ≤ 5
  · refine ⟨(5 - (today + 1) % 7).toNat, by omega, ?_⟩
    simp only [isWeekend, pyWeekday, decide_eq_true_eq]
    have hcast : (((5 - (today + 1) % 7).toNat : ℕ) : ℤ) = 5 - (today + 1) % 7 := by
      omega
    rw [hcast]
    omega
  · refine ⟨0, by norm_num, ?_⟩
    simp only [isWeekend, pyWeekday, decide_eq_true_eq, Nat.cast_zero, add_zero]
    omega

/-! ### Fetcher-level data shapes

`CellVal` models a dict slot that holds either a number or a placeholder
string (Python is duck-typed; the dashboard template prints either). -/

inductive CellVal
  | num (q : ℚ)
  | str (s : String)
deriving DecidableEq, Repr

/-- One hourly forecast entry (lines 225-237). -/
structure FItem where
  label : String
  icon : String
  temp : CellVal
  desc : String
deriving DecidableEq, Repr

/-- The `weather_data['current']` sub-dict (fields added on success only,
such as `alert`, are elided: no claim touches them). -/
structure WCurrent where
  temp : CellVal
  humidity : CellVal
  desc : String
  icon : String
  rain_chance : CellVal
  uv : CellVal
  aqi : CellVal
  aqi_level : String
deriving DecidableEq, Repr

/-- The dict built by `get_weather` (lines 88-102 initialise it; the
success path overwrites the fields). `tomorrow` is a key/value list. -/
structure WeatherData where
  location_name : String
  current : WCurrent
  forecast : List FItem
  tomorrow : List (String × String)
deriving DecidableEq, Repr

/-- Lines 88-102: the structure `get_weather` builds BEFORE trying the
network, with placeholder display values; the `except` path at lines
335-337 returns exactly this value.  (`Config.LANGUAGE` defaults to CN,
`Config.CITY_NAME` to Singapore.) -/
def initial_weather : WeatherData :=
  { location_name := "Singapore"
    current :=
      { temp := .str "--"
        humidity := .str "--"
        desc := "N/A"
        icon := ""
        rain_chance := .str "--"
        uv := .str "--"
        aqi := .str "--"
        aqi_level := "未知" }
    forecast := []
    tomorrow := [("label", ""), ("icon", ""), ("temp", ""), ("desc", "")] }

/-- Outcome of the remote part of `get_weather`.  The source mutates
`weather_data` in place inside the `try`, so the `except` at lines
335-337 returns the dict in whatever state the body reached:

* `netError` -- the request or JSON decode at line 116 raised, before
  any mutation: the dict is still the pristine `initial_weather`;
* `parseError reached` -- a later exception mid-parse (e.g. a `{}`
  payload sets temp 0 at line 126, then `fromisoformat(None)` raises at
  line 177): `reached` is the partially populated dict at the raise
  point;
* `ok w` -- the fully parsed and transformed response. -/
inductive WeatherNet
  | netError
  | parseError (reached : WeatherData)
  | ok (w : WeatherData)

/-- The state `weather_data` has reached when the payload is the valid
but empty JSON object: lines 120-130 fill the current block from the
`.get` defaults (temp `round(0) = 0`, humidity "0%", code 0 mapped to
晴朗/01d, falsy uv kept as 0), the inner AQI try fails harmlessly, the
rain chance defaults to "0%" (lines 170-173), and then
`fromisoformat(None)` raises at line 177. -/
def empty_payload_state : WeatherData :=
  { location_name := "Singapore"
    current :=
      { temp := .num 0
        humidity := .str "0%"
        desc := "晴朗"
        icon := "01d"
        rain_chance := .str "0%"
        uv := .num 0
        aqi := .str "--"
        aqi_level := "未知" }
    forecast := []
    tomorrow := [("label", ""), ("icon", ""), ("temp", ""), ("desc", "")] }

/-- The fetcher `get_weather` (lines 84-337) at the granularity the
claims need: the cache lookup, then the remote call with the three
outcome shapes above, then the cache write on the success path only
(line 332 is the last statement of the `try`, so no exception path ever
reaches it). -/
def get_weather (c : SimpleCache WeatherData) (now : ℚ) (net : WeatherNet) :
    WeatherData × SimpleCache WeatherData :=
  match c.get "weather_data" now with
  | (some v, c1) => (v, c1)
  | (none, c1) =>
      match net with
      | .netError => (initial_weather, c1)
      | .parseError reached => (reached, c1)
      | .ok w => (w, c1.set "weather_data" w now)

/-- The two id-list responses plus the resolved item map of
`get_hacker_news` (lines 385-412).  `none` at the call site models a
raised exception anywhere in the `try` block. -/
structure HNResp where
  topOk : Bool
  bestOk : Bool
  itemsMap : List Story
  topIds : List ℤ
  bestIds : List ℤ

/-- The fetcher `get_hacker_news` (lines 370-547) minus the external-URL
passthrough at lines 372-373 (the staged config.py defines no
NEWS_EXTERNAL_URL attribute, so that guard is an integration defect
outside the ranking logic the claims are about): cache lookup, the
non-OK early return (line 388), the ranking, and the cache write on
success. -/
def get_hacker_news (c : SimpleCache (List Ranked)) (now : ℚ) (net : Option HNResp) :
    List Ranked × SimpleCache (List Ranked) :=
  match c.get "hn_top10" now with
  | (some v, c1) => (v, c1)
  | (none, c1) =>
      match net with
      | none => ([], c1)
      | some r =>
          if !r.topOk || !r.bestOk then ([], c1)
          else
            let out := rank_news r.itemsMap (r.topIds.take 20) (r.bestIds.take 20)
            (out, c1.set "hn_top10" out now)

/-- A finance price cell: a number or the "--" placeholder string. -/
inductive PriceVal
  | val (q : ℚ)
  | dashes
deriving DecidableEq, Repr

/-- The `(plot_url, current_price, percent_change)` triple returned by
`generate_sparkline`.  The rendered PNG is abstracted as the plotted
close-price series. -/
def SparkVal : Type := Option (List ℚ) × PriceVal × ℚ

instance : DecidableEq SparkVal :=
  inferInstanceAs (DecidableEq (Option (List ℚ) × PriceVal × ℚ))

/-- The fetcher `generate_sparkline` (lines 551-592): cache lookup; `net = none`
models a download exception, an empty frame, or a missing close column
(all of which return the fallback triple without caching); `some prices`
is the extracted close series, with the explicit `len(prices) == 0`
check; on success the triple is cached. -/
def generate_sparkline (c : SimpleCache SparkVal) (now : ℚ) (sym : String)
    (net : Option (List ℚ)) : SparkVal × SimpleCache SparkVal :=
  match c.get ("spark_" ++ sym) now with
  | (some v, c1) => (v, c1)
  | (none, c1) =>
      match net with
      | none => ((none, .dashes, 0), c1)
      | some prices =>
          match prices with
          | [] => ((none, .dashes, 0), c1)
          | p :: ps =>
              let current := (p :: ps).getLast (List.cons_ne_nil p ps)
              let change := if p ≠ 0 then (current - p) / p * 100 else 0
              let result : SparkVal := (some (p :: ps), .val current, change)
              (result, c1.set ("spark_" ++ sym) result now)

/-! ### Orchestrator (app.py lines 22-83)

`Fo α` is the outcome of `future.result(timeout=...)`: `ok` carries the
fetcher value, `failed` models a timeout or an exception escaping the
fetcher.  The orchestrator is a total function of these outcomes -- every
failure branch has a fixed substitute, so it can never raise. -/

inductive Fo (α : Type)
  | ok (a : α)
  | failed

def gather {α : Type} (fallback : α) : Fo α → α
  | .ok a => a
  | .failed => fallback

/-- The weather fields the template consumes (app.py line 42 builds the
fallback with exactly these keys). -/
structure WeatherView where
  currentTemp : CellVal
  forecast : List FItem
  tomorrow : List (String × String)
deriving DecidableEq, Repr

def weatherView (w : WeatherData) : WeatherView :=
  ⟨w.current.temp, w.forecast, w.tomorrow⟩

/-- Line 42: `{"current": {"temp": "--"}, "forecast": [], "tomorrow": {}}`. -/
def weather_fallback : WeatherView := ⟨.str "--", [], []⟩

/-- The calendar fields with their fallback (line 47). -/
structure CalView where
  date_str : String
  weekday : String
  lunar : String
deriving DecidableEq, Repr

/-- Line 47: `{"date_str": "--", "weekday": "--", "lunar": "--"}`. -/
def calendar_fallback : CalView := ⟨"--", "--", "--"⟩

/-- Line 59: `chart, price, change = None, "--", 0`. -/
def spark_fallback : SparkVal := (none, .dashes, 0)

structure TickerCfg where
  symbol : String
  name : String
deriving DecidableEq, Repr

structure FinanceRow where
  name : String
  price : String
  change : ℚ
  chart : Option (List ℚ)
deriving DecidableEq, Repr

/-! #### Price formatting (app.py lines 61-69)

Python formats the binary double with correct rounding, which on the
exact rational value of the double is round-half-to-even.
`roundHalfEvenScaled q scale` rounds `q * scale` to the nearest integer,
ties to even, using only integer arithmetic on the reduced fraction. -/

def roundHalfEvenScaled (q : ℚ) (scale : ℤ) : ℤ :=
  let N := q.num * scale
  let D := (q.den : ℤ)
  let f := N.fdiv D
  let r2 := 2 * (N - f * D)
  if r2 < D then f
  else if D < r2 then f + 1
  else if f % 2 = 0 then f else f + 1

/-- Insert a comma after every third digit; the input is least-significant
digit first, `cnt` counts digits already emitted. -/
def digitsGroup : List Char → ℕ → List Char
  | [], _ => []
  | c :: cs, cnt =>
      c :: (if cnt % 3 = 2 ∧ cs ≠ [] then ',' :: digitsGroup cs (cnt + 1)
            else digitsGroup cs (cnt + 1))

/-- Python format spec `,.0f`: thousands-grouped, zero decimals. -/
def format_comma0 (q : ℚ) : String :=
  let n := roundHalfEvenScaled q 1
  let body := String.mk ((digitsGroup (Nat.toDigits 10 n.natAbs).reverse 0).reverse)
  if n < 0 then "-" ++ body else body

/-- Python format spec `.4f`: exactly four decimals, no grouping. -/
def format_fixed4 (q : ℚ) : String :=
  let n := roundHalfEvenScaled q 10000
  let a := n.natAbs
  let fracDigits := Nat.toDigits 10 (a % 10000)
  let body := String.mk (Nat.toDigits 10 (a / 10000)) ++ "." ++
    String.mk (List.replicate (4 - fracDigits.length) '0' ++ fracDigits)
  if n < 0 then "-" ++ body else body

/-- Lines 62-69.  The `try/except: p_str = str(price)` guard around the
4-decimal branch can only fire for a non-numeric price, which the model
(where a non-failed price is a number) makes unreachable; the branch
structure is otherwise exact. -/
def format_price (name : String) (p : PriceVal) : String :=
  match p with
  | .dashes => "--"
  | .val q => if hasSubstr name "BTC" then format_comma0 q else format_fixed4 q

/-- Lines 55-76: one assembled finance entry. -/
def finance_row (t : TickerCfg) (fo : Fo SparkVal) : FinanceRow :=
  match gather spark_fallback fo with
  | (chart, price, change) =>
      { name := t.name, price := format_price t.name price, change := change,
        chart := chart }

/-- The per-request snapshot handed to the template (`updated_at` elided). -/
structure Snapshot where
  weather : WeatherView
  calendar : CalView
  news : List Ranked
  finance : List FinanceRow
deriving DecidableEq, Repr

/-- The `/dashboard` gather-and-merge (app.py lines 37-83), over the
outcome of each submitted future; the ticker list is a parameter
(`Config` supplies three by default). -/
def dashboard (wOut : Fo WeatherData) (calOut : Fo CalView)
    (newsOut : Fo (List Ranked)) (fin : List (TickerCfg × Fo SparkVal)) : Snapshot :=
  { weather :=
      match wOut with
      | .ok w => weatherView w
      | .failed => weather_fallback
    calendar := gather calendar_fallback calOut
    news := gather [] newsOut
    finance := fin.map (fun p => finance_row p.1 p.2) }

/-! ### Error-path behaviour of the fetchers -/

theorem get_weather_neterr (cw : SimpleCache WeatherData) (now : ℚ)
    (hw : (cw.get "weather_data" now).1 = none) :
    get_weather cw now WeatherNet.netError =
      (initial_weather, (cw.get "weather_data" now).2) := by
  unfold get_weather
  rcases hg : cw.get "weather_data" now with ⟨o, c1⟩
  rw [hg] at hw
  cases o with
  | some v => simp at hw
  | none => rfl

theorem get_weather_parseerr (cw : SimpleCache WeatherData) (now : ℚ)
    (reached : WeatherData) (hw : (cw.get "weather_data" now).1 = none) :
    get_weather cw now (WeatherNet.parseError reached) =
      (reached, (cw.get "weather_data" now).2) := by
  unfold get_weather
  rcases hg : cw.get "weather_data" now with ⟨o, c1⟩
  rw [hg] at hw
  cases o with
  | some v => simp at hw
  | none => rfl

theorem get_hacker_news_err (cn : SimpleCache (List Ranked)) (now : ℚ)
    (net : Option HNResp) (hn : (cn.get "hn_top10" now).1 = none)
    (herr : net = none ∨ ∃ r, net = some r ∧ (!r.topOk || !r.bestOk) = true) :
    get_hacker_news cn now net = ([], (cn.get "hn_top10" now).2) := by
  unfold get_hacker_news
  rcases hg : cn.get "hn_top10" now with ⟨o, c1⟩
  rw [hg] at hn
  cases o with
  | some v => simp at hn
  | none =>
      rcases herr with h | ⟨r, hr, hflag⟩
      · rw [h]
      · rw [hr]
        simp only [hflag, if_true]

theorem generate_sparkline_err (cf : SimpleCache SparkVal) (now : ℚ) (sym : String)
    (net : Option (List ℚ)) (hf : (cf.get ("spark_" ++ sym) now).1 = none)
    (herr : net = none ∨ net = some []) :
    generate_sparkline cf now sym net = (spark_fallback, (cf.get ("spark_" ++ sym) now).2) := by
  unfold generate_sparkline
  rcases hg : cf.get ("spark_" ++ sym) now with ⟨o, c1⟩
  rw [hg] at hf
  cases o with
  | some v => simp at hf
  | none =>
      rcases herr with h | h <;> rw [h] <;> rfl

/-- C4: `set` stores the value with the current timestamp (overwriting any
prior entry for the key), and a later `get` returns it exactly while
`now - storedAt < ttl`, behaving as absent from `ttl` onwards. -/
theorem c4_cache_ttl {α : Type} (c : SimpleCache α) (key : String) (v : α)
    (t tq : ℚ) :
    ((c.set key v t).cache key = some (v, t)) ∧
    (tq - t < c.ttl → ((c.set key v t).get key tq).1 = some v) ∧
    (c.ttl ≤ tq - t → ((c.set key v t).get key tq).1 = none) := by
  refine ⟨by simp [SimpleCache.set], ?_, ?_⟩
  · intro h
    simp [SimpleCache.get, SimpleCache.set, h]
  · intro h
    simp [SimpleCache.get, SimpleCache.set, not_lt.mpr h]

theorem c4_cache_ttl_witness :
    (((⟨5, fun _ => none⟩ : SimpleCache ℕ).set "k" 1 0).get "k" 3).1 = some 1 ∧
    (((⟨5, fun _ => none⟩ : SimpleCache ℕ).set "k" 1 0).get "k" 6).1 = none := by
  constructor
  · exact (c4_cache_ttl ⟨5, fun _ => none⟩ "k" 1 0 3).2.1 (by norm_num)
  · exact (c4_cache_ttl ⟨5, fun _ => none⟩ "k" 1 0 6).2.2 (by norm_num)

/-- C5 counterexample: the fetchers themselves already return inline
display values on error — the finance fetcher returns the very triple the
orchestrator substitutes; the weather fetcher returns a displayable dict
in every error case, the "--"-filled placeholder on a network error and
the partially populated structure (here with a numeric temperature 0,
from the empty-object payload that raises at line 177) on a mid-parse
error — so no distinguished Failed result exists at the fetcher
boundary. -/
theorem c5_counterexample :
    (generate_sparkline ⟨900, fun _ => none⟩ 0 "BTC-USD" none).1 = spark_fallback ∧
    (get_weather ⟨600, fun _ => none⟩ 0 WeatherNet.netError).1.current.temp =
      CellVal.str "--" ∧
    (get_weather ⟨600, fun _ => none⟩ 0
        (WeatherNet.parseError empty_payload_state)).1 = empty_payload_state ∧
    empty_payload_state.current.temp = CellVal.num 0 ∧
    (get_hacker_news ⟨300, fun _ => none⟩ 0 none).1 = [] := by
  refine ⟨rfl, rfl, rfl, rfl, rfl⟩

/-- C5 (amended): there is no distinguished Failed result — on an error
each fetcher returns an inline display value itself: the weather fetcher
returns its pre-initialised placeholder structure when the request or
JSON decode raises, and the partially populated structure reached so far
when a later parse step raises (the source mutates the dict in place and
the except at lines 335-337 returns it as-is); the news fetcher returns
the empty list; the finance fetcher returns (None, "--", 0); the
orchestrator separately substitutes fallbacks only on timeout/exception
of the future. -/
theorem c5_fetcher_error_values (cw : SimpleCache WeatherData)
    (cn : SimpleCache (List Ranked)) (cf : SimpleCache SparkVal)
    (now : ℚ) (sym : String)
    (hw : (cw.get "weather_data" now).1 = none)
    (hn : (cn.get "hn_top10" now).1 = none)
    (hf : (cf.get ("spark_" ++ sym) now).1 = none) :
    (get_weather cw now WeatherNet.netError).1 = initial_weather ∧
    initial_weather.current.temp = CellVal.str "--" ∧
    (∀ reached, (get_weather cw now (WeatherNet.parseError reached)).1 = reached) ∧
    (get_hacker_news cn now none).1 = [] ∧
    (generate_sparkline cf now sym none).1 = spark_fallback := by
  refine ⟨?_, rfl, ?_, ?_, ?_⟩
  · rw [get_weather_neterr cw now hw]
  · intro reached
    rw [get_weather_parseerr cw now reached hw]
  · rw [get_hacker_news_err cn now none hn (Or.inl rfl)]
  · rw [generate_sparkline_err cf now sym none hf (Or.inl rfl)]

theorem c5_fetcher_error_values_witness :
    (get_weather ⟨600, fun _ => none⟩ 7 WeatherNet.netError).1 = initial_weather ∧
    (get_weather ⟨600, fun _ => none⟩ 7
        (WeatherNet.parseError empty_payload_state)).1 = empty_payload_state ∧
    (generate_sparkline ⟨900, fun _ => none⟩ 7 "CNY=X" none).1 = spark_fallback := by
  have h := c5_fetcher_error_values ⟨600, fun _ => none⟩ ⟨300, fun _ => none⟩
    ⟨900, fun _ => none⟩ 7 "CNY=X" rfl rfl rfl
  exact ⟨h.1, h.2.2.1 empty_payload_state, h.2.2.2.2⟩

/-- C9 counterexample: with an expired entry in the cache, the error path
does change the cache contents — the initial lookup lazily deletes the
expired entry before the network is attempted. -/
theorem c9_counterexample :
    (get_weather
        ⟨5, fun k => if k = "weather_data" then some (initial_weather, 0) else none⟩
        10 WeatherNet.netError).2.cache "weather_data" ≠
      (⟨5, fun k => if k = "weather_data" then some (initial_weather, 0) else none⟩ :
        SimpleCache WeatherData).cache "weather_data" := by
  have httl : ((10 : ℚ) < 5) = False := by norm_num
  simp [get_weather, SimpleCache.get, httl]

/-- C9 (amended): no fetcher creates or overwrites a cache entry on an
error path — the resulting cache is exactly the post-lookup cache, which
never gains a new or modified entry and can differ from the original only
by the lazy deletion of an already-expired entry during the initial
`get`. -/
theorem c9_no_error_writes (cw : SimpleCache WeatherData)
    (cn : SimpleCache (List Ranked)) (cf : SimpleCache SparkVal) (now : ℚ)
    (sym : String) (netW : WeatherNet) (netN : Option HNResp) (netF : Option (List ℚ))
    (hw : (cw.get "weather_data" now).1 = none)
    (hn : (cn.get "hn_top10" now).1 = none)
    (hf : (cf.get ("spark_" ++ sym) now).1 = none)
    (herrW : netW = WeatherNet.netError ∨ ∃ w, netW = WeatherNet.parseError w)
    (herrN : netN = none ∨ ∃ r, netN = some r ∧ (!r.topOk || !r.bestOk) = true)
    (herrF : netF = none ∨ netF = some []) :
    ((get_weather cw now netW).2 = (cw.get "weather_data" now).2 ∧
      ∀ k e, ((get_weather cw now netW).2).cache k = some e → cw.cache k = some e) ∧
    ((get_hacker_news cn now netN).2 = (cn.get "hn_top10" now).2 ∧
      ∀ k e, ((get_hacker_news cn now netN).2).cache k = some e → cn.cache k = some e) ∧
    ((generate_sparkline cf now sym netF).2 = (cf.get ("spark_" ++ sym) now).2 ∧
      ∀ k e, ((generate_sparkline cf now sym netF).2).cache k = some e →
        cf.cache k = some e) := by
  have h1 : (get_weather cw now netW).2 = (cw.get "weather_data" now).2 := by
    rcases herrW with h | ⟨w, h⟩
    · rw [h, get_weather_neterr cw now hw]
    · rw [h, get_weather_parseerr cw now w hw]
  have h2 := get_hacker_news_err cn now netN hn herrN
  have h3 := generate_sparkline_err cf now sym netF hf herrF
  refine ⟨⟨h1, ?_⟩, ⟨by rw [h2], ?_⟩, ⟨by rw [h3], ?_⟩⟩
  · intro k e he
    rw [h1] at he
    exact SimpleCache.get_snd_subset cw "weather_data" now k e he
  · intro k e he
    rw [h2] at he
    exact SimpleCache.get_snd_subset cn "hn_top10" now k e he
  · intro k e he
    rw [h3] at he
    exact SimpleCache.get_snd_subset cf ("spark_" ++ sym) now k e he

theorem c9_no_error_writes_witness :
    (get_weather ⟨600, fun _ => none⟩ 7 (WeatherNet.parseError empty_payload_state)).2 =
      ((⟨600, fun _ => none⟩ : SimpleCache WeatherData).get "weather_data" 7).2 ∧
    (get_hacker_news ⟨300, fun _ => none⟩ 7 none).2 =
      ((⟨300, fun _ => none⟩ : SimpleCache (List Ranked)).get "hn_top10" 7).2 ∧
    (generate_sparkline ⟨900, fun _ => none⟩ 7 "BTC-USD" (some [])).2 =
      ((⟨900, fun _ => none⟩ : SimpleCache SparkVal).get ("spark_" ++ "BTC-USD") 7).2 := by
  have h := c9_no_error_writes ⟨600, fun _ => none⟩ ⟨300, fun _ => none⟩
    ⟨900, fun _ => none⟩ 7 "BTC-USD" (WeatherNet.parseError empty_payload_state)
    none (some []) rfl rfl rfl (Or.inr ⟨empty_payload_state, rfl⟩) (Or.inl rfl)
    (Or.inr rfl)
  exact ⟨h.1.1, h.2.1.1, h.2.2.1⟩

/-- C6 counterexample: with the default work hours 10-18, a naive +3h
slot of 14:00 (now = 11:30) lies inside the work hours, yet the code
returns the work-end boundary 18:00 instead of keeping the naive slot. -/
theorem c6_counterexample :
    replaceHour (truncHour (690 + 180)) 10 ≤ truncHour (690 + 180) ∧
    truncHour (690 + 180) < replaceHour (truncHour (690 + 180)) 18 ∧
    slot3 690 10 18 ≠ truncHour (690 + 180) ∧
    slot3 690 10 18 = replaceHour (truncHour (690 + 180)) 18 := by
  decide

/-- C6 (amended): slots 1 and 2 are always now+1h and now+2h (truncated
to the hour); the third slot snaps forward to the work-start boundary
when the naive now+3h hour is before it, snaps forward to the work-end
boundary when the naive hour lies inside the work hours, and keeps the
naive hour only when it is at or after the work-end boundary. -/
theorem c6_slots (now ws we : ℤ) :
    slot1 now = truncHour (now + 60) ∧
    slot2 now = truncHour (now + 120) ∧
    (truncHour (now + 180) < replaceHour (truncHour (now + 180)) ws →
      slot3 now ws we = replaceHour (truncHour (now + 180)) ws) ∧
    (replaceHour (truncHour (now + 180)) ws ≤ truncHour (now + 180) →
      truncHour (now + 180) < replaceHour (truncHour (now + 180)) we →
      slot3 now ws we = replaceHour (truncHour (now + 180)) we) ∧
    (replaceHour (truncHour (now + 180)) ws ≤ truncHour (now + 180) →
      replaceHour (truncHour (now + 180)) we ≤ truncHour (now + 180) →
      slot3 now ws we = truncHour (now + 180)) := by
  refine ⟨rfl, rfl, ?_, ?_, ?_⟩
  · intro h
    simp only [slot3]
    rw [if_pos h]
  · intro h1 h2
    simp only [slot3]
    rw [if_neg (not_lt.mpr h1), if_pos h2]
  · intro h1 h2
    simp only [slot3]
    rw [if_neg (not_lt.mpr h1), if_neg (not_lt.mpr h2)]

theorem c6_slots_witness :
    slot3 1380 10 18 = replaceHour (truncHour (1380 + 180)) 10 :=
  (c6_slots 1380 10 18).2.2.1 (by decide)

/-- C7: for every combination of fetch outcomes, a failed or timed-out
domain gets exactly the documented fallback literal in the snapshot -- 
weather current temp "--" (with empty forecast and tomorrow), calendar
date/weekday/lunar "--", news the empty list, and per failed finance
ticker chart None, price "--", change 0; the orchestrator is a total
function of the outcomes, so it never raises. -/
theorem c7_orchestrator_fallbacks (wOut : Fo WeatherData) (calOut : Fo CalView)
    (newsOut : Fo (List Ranked)) (fin : List (TickerCfg × Fo SparkVal)) :
    (wOut = Fo.failed →
      (dashboard wOut calOut newsOut fin).weather = weather_fallback ∧
      (dashboard wOut calOut newsOut fin).weather.currentTemp = CellVal.str "--") ∧
    (calOut = Fo.failed →
      (dashboard wOut calOut newsOut fin).calendar = calendar_fallback ∧
      (dashboard wOut calOut newsOut fin).calendar.weekday = "--") ∧
    (newsOut = Fo.failed → (dashboard wOut calOut newsOut fin).news = []) ∧
    (∀ t : TickerCfg, (t, Fo.failed) ∈ fin →
      ({ name := t.name, price := "--", change := 0, chart := none } : FinanceRow) ∈
        (dashboard wOut calOut newsOut fin).finance) := by
  refine ⟨?_, ?_, ?_, ?_⟩
  · intro h
    rw [h]
    exact ⟨rfl, rfl⟩
  · intro h
    rw [h]
    exact ⟨rfl, rfl⟩
  · intro h
    rw [h]
    rfl
  · intro t ht
    have : finance_row t Fo.failed =
        { name := t.name, price := "--", change := 0, chart := none } := rfl
    rw [← this]
    unfold dashboard
    simp only [List.mem_map]
    exact ⟨(t, Fo.failed), ht, rfl⟩

theorem c7_orchestrator_fallbacks_witness :
    (dashboard Fo.failed Fo.failed Fo.failed
        [(⟨"BTC-USD", "BTC/USD"⟩, Fo.failed)]).weather = weather_fallback ∧
    (dashboard Fo.failed Fo.failed Fo.failed
        [(⟨"BTC-USD", "BTC/USD"⟩, Fo.failed)]).news = [] ∧
    ({ name := "BTC/USD", price := "--", change := 0, chart := none } : FinanceRow) ∈
      (dashboard Fo.failed Fo.failed Fo.failed
        [(⟨"BTC-USD", "BTC/USD"⟩, Fo.failed)]).finance := by
  have h := c7_orchestrator_fallbacks Fo.failed Fo.failed Fo.failed
    [(⟨"BTC-USD", "BTC/USD"⟩, Fo.failed)]
  exact ⟨(h.1 rfl).1, h.2.2.1 rfl, h.2.2.2 ⟨"BTC-USD", "BTC/USD"⟩ (by simp)⟩

/-- C8: a failed price renders as "--"; a non-failed price for a ticker
whose display name contains "BTC" is thousands-grouped with zero
decimals (8123.456 gives "8,123"); any other price gets exactly four
decimals -- the double closest to 5.12345 is 2884245938856421/2^49, which
is slightly above the decimal tie, so it renders "5.1235" exactly as
CPython formats the float. -/
theorem c8_price_format (name : String) (q : ℚ) :
    format_price name PriceVal.dashes = "--" ∧
    (hasSubstr name "BTC" = true → format_price name (PriceVal.val q) = format_comma0 q) ∧
    (hasSubstr name "BTC" = false → format_price name (PriceVal.val q) = format_fixed4 q) ∧
    format_comma0 (mkRat 8123456 1000) = "8,123" ∧
    format_fixed4 (mkRat 2884245938856421 562949953421312) = "5.1235" := by
  refine ⟨rfl, ?_, ?_, by decide, by decide⟩
  · intro h
    simp [format_price, h]
  · intro h
    simp [format_price, h]

theorem c8_price_format_witness :
    format_price "BTC/USD" (PriceVal.val (mkRat 8123456 1000)) = "8,123" ∧
    format_price "USD/CNY" (PriceVal.val (mkRat 2884245938856421 562949953421312)) =
      "5.1235" := by
  have h1 := c8_price_format "BTC/USD" (mkRat 8123456 1000)
  have h2 := c8_price_format "USD/CNY" (mkRat 2884245938856421 562949953421312)
  exact ⟨(h1.2.1 (by decide)).trans h1.2.2.2.1,
    (h2.2.2.1 (by decide)).trans h2.2.2.2.2⟩

/-- C10: for every holiday calendar and every starting day, the forward
scan finds a next non-working day (the field is never None), and since a
weekend day occurs within six days of tomorrow, `days_away` is always
between 1 and 6 -- a holiday can only shorten the wait, never lengthen
it, and the 30-day bound is never reached. -/
theorem c10_next_non_working (hol : ℤ → Bool) (today : ℤ) :
    ∃ r, next_non_working hol today = some r ∧ 1 ≤ r.daysAway ∧ r.daysAway ≤ 6 := by
  obtain ⟨i, hi, hw⟩ := weekend_within_six today
  have hgood : (isWeekend (today + 1 + i) || hol (today + 1 + i)) = true := by
    rw [hw]
    rfl
  obtain ⟨d, hd, hd1, hd2⟩ :=
    scanNonWorking_finds hol 30 (today + 1) i (by omega) hgood
  refine ⟨⟨d, d - today⟩, ?_, ?_, ?_⟩
  · unfold next_non_working
    rw [hd]
  · show 1 ≤ d - today
    omega
  · show d - today ≤ 6
    omega

/-- C1 counterexample: a story exactly 12 hours old with score 50 is
admitted as a breaking candidate by the code (`age_hours > 12` is the
skip test), although it is not younger than 12 hours. -/
theorem c1_counterexample :
    (⟨1, "t", 50, 0, 12⟩ : Story) ∈
      breaking_candidates [⟨1, "t", 50, 0, 12⟩] [1] ∧
    ¬ ((⟨1, "t", 50, 0, 12⟩ : Story).age < 12) := by
  constructor
  · decide
  · decide

/-- C1 (amended): a resolved story from the "top" id list is admitted as a
breaking candidate iff it is at most 12 hours old (the code admits age
exactly 12) and has score >= 50, and its velocity is
`(score + 0.2 * descendants) * m / (ageHours + 1.5) ^ 1.8` with `m`
starting at 1.0, times 0.4 on a subjective marker, times 1.5 on an
event keyword, both multiplicative. -/
theorem c1_candidate_filter_velocity (m : List Story) (topIds : List ℤ) (s : Story) :
    (s ∈ breaking_candidates m topIds ↔
      s ∈ lookupItems m topIds ∧ s.age ≤ 12 ∧ 50 ≤ s.score) ∧
    velocityR s =
      (((s.score : ℝ) + (s.descendants : ℝ) * 0.2) *
        ((if subj_hit s.title then (0.4 : ℝ) else 1) *
         (if event_hit s.title then (1.5 : ℝ) else 1))) /
      ((s.age : ℝ) + 1.5) ^ (1.8 : ℝ) :=
  ⟨mem_breaking_candidates m topIds s, velocityR_formula s⟩

/-- C2: the final list is the promoted breaking item (if any) followed by
an order-preserving selection from the "best" stories, then from the
velocity-sorted candidates, then from the score-sorted "top" stories
(each later stage only when the list is still under 10); it is capped at
10, reaches exactly 10 whenever more than 10 distinct resolvable stories
are available, has no duplicate ids, and only the first-placed entry can
carry the breaking flag. -/
theorem c2_assembly (m : List Story) (topIds bestIds : List ℤ) :
    (∃ t2 t3 t4,
      rank_news m topIds bestIds = stage1 m topIds ++ t2 ++ t3 ++ t4 ∧
      (stage1 m topIds = [] ∨
        ∃ b rest, sortedCandidates m topIds = b :: rest ∧ breaking_ok b = true ∧
          stage1 m topIds = [⟨b, true⟩]) ∧
      List.Sublist (t2.map Ranked.story) (lookupItems m bestIds) ∧
      List.Sublist (t3.map Ranked.story) (sortedCandidates m topIds) ∧
      List.Sublist (t4.map Ranked.story) (top_by_score m topIds) ∧
      (∀ r ∈ t2 ++ t3 ++ t4, r.isBreaking = false)) ∧
    (rank_news m topIds bestIds).length ≤ 10 ∧
    (10 < (((lookupItems m topIds ++ lookupItems m bestIds).map Story.id).dedup).length →
      (rank_news m topIds bestIds).length = 10) ∧
    (ids (rank_news m topIds bestIds)).Nodup ∧
    (∀ r ∈ (rank_news m topIds bestIds).tail, r.isBreaking = false) := by
  refine ⟨?_, rank_news_length_le m topIds bestIds, rank_news_full m topIds bestIds,
    rank_news_nodup m topIds bestIds, rank_news_tail_flags m topIds bestIds⟩
  obtain ⟨t2, t3, t4, heq, hs2, hs3, hs4, hb2, hb3, hb4⟩ :=
    rank_news_decomp m topIds bestIds
  refine ⟨t2, t3, t4, heq, stage1_cases m topIds, hs2, hs3, hs4, ?_⟩
  intro r hr
  rcases List.mem_append.mp hr with hr | hr
  · rcases List.mem_append.mp hr with hr | hr
    · exact hb2 r hr
    · exact hb3 r hr
  · exact hb4 r hr

theorem c2_assembly_witness :
    (rank_news
      [⟨1, "t", 100, 0, 20⟩, ⟨2, "t", 100, 0, 20⟩, ⟨3, "t", 100, 0, 20⟩,
       ⟨4, "t", 100, 0, 20⟩, ⟨5, "t", 100, 0, 20⟩, ⟨6, "t", 100, 0, 20⟩,
       ⟨7, "t", 100, 0, 20⟩, ⟨8, "t", 100, 0, 20⟩, ⟨9, "t", 100, 0, 20⟩,
       ⟨10, "t", 100, 0, 20⟩, ⟨11, "t", 100, 0, 20⟩, ⟨12, "t", 100, 0, 20⟩]
      [1, 2] [1, 2, 3, 4, 5, 6, 7, 8, 9, 10, 11, 12]).length = 10 :=
  (c2_assembly _ _ _).2.2.1 (by decide)

/-- C3: whenever there is at least one filtered candidate, the head of the
velocity-sorted list has maximal velocity among all candidates; some
entry of the final list is marked breaking iff that head velocity
strictly exceeds 30; when it does, the head is placed first (flagged) and
no later entry is breaking; when it does not, nothing is breaking.  The
`0 ≤ age` hypothesis embeds the float computation soundly (the real code
would raise on `age < -1.5`, and HN timestamps are never in the future). -/
theorem c3_breaking (m : List Story) (topIds bestIds : List ℤ) (b : Story)
    (rest : List Story) (hm : ∀ s ∈ m, 0 ≤ s.age)
    (hcons : sortedCandidates m topIds = b :: rest) :
    (∀ c ∈ breaking_candidates m topIds, velocityR c ≤ velocityR b) ∧
    ((∃ r ∈ rank_news m topIds bestIds, r.isBreaking = true) ↔
      (30 : ℝ) < velocityR b) ∧
    ((30 : ℝ) < velocityR b →
      (rank_news m topIds bestIds).head? = some ⟨b, true⟩ ∧
      ∀ r ∈ (rank_news m topIds bestIds).tail, r.isBreaking = false) ∧
    (¬ (30 : ℝ) < velocityR b →
      ∀ r ∈ rank_news m topIds bestIds, r.isBreaking = false) := by
  have hden : ∀ s ∈ m, 0 < den s := by
    intro s hs
    have := hm s hs
    unfold den
    linarith
  have hbm : b ∈ breaking_candidates m topIds := by
    refine (mem_sortedCandidates m topIds b).mp ?_
    rw [hcons]
    exact List.mem_cons_self b rest
  have hbden : 0 < den b := hden b (breaking_candidates_subset m topIds b hbm)
  have hbrk : breaking_ok b = true ↔ (30 : ℝ) < velocityR b := breaking_ok_iff b hbden
  have hstage : stage1 m topIds = if breaking_ok b then [⟨b, true⟩] else [] := by
    unfold stage1
    rw [hcons]
  refine ⟨?_, ?_, ?_, ?_⟩
  · intro c hc
    have hcden : 0 < den c := hden c (breaking_candidates_subset m topIds c hc)
    exact (velBefore_iff b c hbden hcden).mp (sortedCandidates_head_max m topIds b rest hcons c hc)
  · constructor
    · rintro ⟨r, hr, hbr⟩
      by_cases hb : breaking_ok b
      · exact hbrk.mp hb
      · have h1 : stage1 m topIds = [] := by rw [hstage, if_neg hb]
        have := rank_news_no_breaking m topIds bestIds h1 r hr
        rw [this] at hbr
        exact absurd hbr (by simp)
    · intro hv
      have hb : breaking_ok b = true := hbrk.mpr hv
      have h1 : stage1 m topIds = [⟨b, true⟩] := by rw [hstage, if_pos hb]
      have hhead := rank_news_head m topIds bestIds b h1
      refine ⟨⟨b, true⟩, ?_, rfl⟩
      cases hl : rank_news m topIds bestIds with
      | nil => rw [hl] at hhead; simp at hhead
      | cons x xs =>
          rw [hl] at hhead
          simp at hhead
          rw [hhead]
          exact List.mem_cons_self _ _
  · intro hv
    have hb : breaking_ok b = true := hbrk.mpr hv
    have h1 : stage1 m topIds = [⟨b, true⟩] := by rw [hstage, if_pos hb]
    exact ⟨rank_news_head m topIds bestIds b h1, rank_news_tail_flags m topIds bestIds⟩
  · intro hv
    have hb : breaking_ok b = false := by
      rw [← Bool.not_eq_true]
      intro hb
      exact hv (hbrk.mp hb)
    have h1 : stage1 m topIds = [] := by rw [hstage, if_neg (by simp [hb])]
    exact rank_news_no_breaking m topIds bestIds h1

theorem c3_breaking_witness :
    (rank_news [⟨1, "t", 200, 0, 0⟩] [1] []).head? =
      some ⟨⟨1, "t", 200, 0, 0⟩, true⟩ := by
  have hs : subj_hit "t" = false := by decide
  have he : event_hit "t" = false := by decide
  have hv : (30 : ℝ) < velocityR ⟨1, "t", 200, 0, 0⟩ := by
    refine (breaking_ok_iff ⟨1, "t", 200, 0, 0⟩ ?_).mp ?_
    · norm_num [den]
    · norm_num [breaking_ok, velKey, velNum, impact, semanticModifier, hs, he, den]
  exact ((c3_breaking [⟨1, "t", 200, 0, 0⟩] [1] [] ⟨1, "t", 200, 0, 0⟩ []
    (by decide) (by decide)).2.2.1 hv).1

theorem c1_candidate_filter_velocity_witness :
    (⟨2, "t", 80, 50, 1⟩ : Story) ∈ breaking_candidates [⟨2, "t", 80, 50, 1⟩] [2] :=
  (c1_candidate_filter_velocity [⟨2, "t", 80, 50, 1⟩] [2] ⟨2, "t", 80, 50, 1⟩).1.mpr
    ⟨by decide, by decide, by decide⟩
